import Mathlib

/-!
Verification of the run-lifecycle core of the ObjectiveFunction server.

The development is a shallow embedding of the code in
`ObjectiveFunction_server/models.py` (together with the relevant glue in
`routes.py` and the enumerations in `common.py`).  Database rows become
Lean structures, SQLAlchemy queries become list operations over the runs
of a scenario (kept in ascending id order, the rowid scan order of the
SQLite backend the source defaults to and tests with; fresh ids are the
current maximum plus one, so the id of a deleted maximum row is handed
out again), Python exceptions become `Except` results, and in-place
mutation becomes explicit state passing.  Numeric parameter and result
values are modelled as integers and strings via a small JSON-value type:
no claim under study depends on floating-point arithmetic, only on
storage and retrieval.
-/

namespace ObjFun

/-- The run types of `common.RunType`: MISFIT stores a number, PATH a path. -/
inductive RunType where
  | MISFIT
  | PATH
  deriving DecidableEq, Repr

/-- The lifecycle states of `common.LookupState`, in declaration order. -/
inductive LookupState where
  | PROVISIONAL
  | NEW
  | CONFIGURING
  | CONFIGURED
  | ACTIVE
  | RUN
  | POSTPROCESSING
  | COMPLETED
  deriving DecidableEq, Repr

/-- The numeric enum value of each state (`LookupState.PROVISIONAL = 1`, …,
`LookupState.COMPLETED = 8`), as used by the guard in `Run.set_value`. -/
def LookupState.value : LookupState → Nat
  | .PROVISIONAL => 1
  | .NEW => 2
  | .CONFIGURING => 3
  | .CONFIGURED => 4
  | .ACTIVE => 5
  | .RUN => 6
  | .POSTPROCESSING => 7
  | .COMPLETED => 8

/-- A JSON scalar, the value space of result payloads.  `null` stands for
the Python `None` that an unset database column reads back as. -/
inductive JVal where
  | null
  | num (n : Int)
  | str (s : String)
  deriving DecidableEq, Repr

/-- A JSON object payload, e.g. the body of a PUT to the value route:
a finite map from keys to scalar values. -/
abbrev Payload := List (String × JVal)

/-- Key lookup in a payload (Python dict indexing; `none` models KeyError). -/
def Payload.get (p : Payload) (k : String) : Option JVal :=
  (p.find? (fun kv => kv.1 = k)).map (fun kv => kv.2)

/-- Bound parameter values of a run: parameter name to stored value
(the `RunParameters` rows of one run). -/
abbrev ParamVals := List (String × Int)

/-- Lookup of one bound parameter value by name. -/
def ParamVals.get (v : ParamVals) (k : String) : Option Int :=
  (v.find? (fun kv => kv.1 = k)).map (fun kv => kv.2)

/-- One row of the `runs` table together with its subclass column.
`misfit` is the `RunMisfit.misfit` column, `path` the `RunPath.path`
column; `none` models an SQL NULL (value never set). -/
structure Run where
  id : Nat
  runtype : RunType
  state : LookupState
  values : ParamVals
  misfit : Option JVal
  path : Option JVal
  deriving DecidableEq, Repr

/-- Errors raised by `Run.set_value`: `invalidState` is
the wrong-state RuntimeError, `badPayload` the KeyError escaping from
the subclass setter when the payload has no value key. -/
inductive SetValueErr where
  | invalidState
  | badPayload
  deriving DecidableEq, Repr

/-- Shared meaning of the subclass setters, in the source
RunMisfit and RunPath each store the payload entry under the key
value into their own column; `badPayload` is the KeyError when the key is
absent.  The returned run still has the old state: the state assignment
in `set_value` happens after this call. -/
def Run._set_value (r : Run) (value : Payload) : Except SetValueErr Run :=
  match value.get "value" with
  | none => .error .badPayload
  | some v =>
    match r.runtype with
    | .MISFIT => .ok { r with misfit := some v }
    | .PATH => .ok { r with path := some v }

/-- Guarded result setter `Run.set_value`.  The pair is (outcome, run
after the call); on an error the run is returned unchanged, mirroring
that the Python exception propagates before any mutation. -/
def Run.set_value (r : Run) (value : Payload) (force : Bool) : Except SetValueErr Unit × Run :=
  if (LookupState.CONFIGURED.value < r.state.value ∧ r.state ≠ .COMPLETED) ∨ force = true then
    match r._set_value value with
    | .error e => (.error e, r)
    | .ok r1 => (.ok (), { r1 with state := .COMPLETED })
  else
    (.error .invalidState, r)

/-- The column a run of a given type stores its result in. -/
def Run.storedValue (r : Run) : Option JVal :=
  match r.runtype with
  | .MISFIT => r.misfit
  | .PATH => r.path

/-- Reader of the misfit column, `RunMisfit.get_value`: the source
returns a dict holding the misfit under the key value; an unset column
surfaces as `null`, never as an error. -/
def RunMisfit.get_value (r : Run) : Except SetValueErr JVal :=
  .ok (r.misfit.getD .null)

/-- Reader of the path column, `RunPath.get_value`: the source returns
a dict holding the path under the key value; an unset column surfaces as
`null`, never as an error. -/
def RunPath.get_value (r : Run) : Except SetValueErr JVal :=
  .ok (r.path.getD .null)

/-- Polymorphic dispatch of `get_value` by the run type, as SQLAlchemy
performs through the `type` discriminator column. -/
def Run.get_value (r : Run) : Except SetValueErr JVal :=
  match r.runtype with
  | .MISFIT => RunMisfit.get_value r
  | .PATH => RunPath.get_value r

/-- Constructor of a run row: the fresh row binds one value per
study parameter, read out of the submitted dictionary.  The source raises
a KeyError when a parameter name is absent from `parameters`; the theorems
that reach this constructor therefore assume the submitted vector covers
all parameter names, and the default used for an absent name is never
relied on. -/
def Run.create (i : Nat) (rt : RunType) (params : List String) (parameters : ParamVals) : Run :=
  { id := i
    runtype := rt
    state := .NEW
    values := params.map (fun p => (p, (parameters.get p).getD 0))
    misfit := none
    path := none }

/-- The submitted vector has a value for every parameter name, so the
dictionary accesses `parameters[p.name]` of the source cannot raise. -/
def covers (params : List String) (parameters : ParamVals) : Prop :=
  ∀ p ∈ params, (ParamVals.get parameters p).isSome = true

/-- The `LookupError` raised by `Scenario.get_run`, `get_run_with_state`
and the id lookups: a not-found outcome. -/
inductive LookupErr where
  | notFound
  deriving DecidableEq, Repr

/-- One scenario row with its owned runs.  `runs` is kept in ascending id
order — the rowid scan order SQLAlchemy yields for rows keyed by the
integer primary key on the SQLite backend the source defaults to and
tests with. -/
structure Scenario where
  runtype : RunType
  params : List String
  runs : List Run
  deriving DecidableEq, Repr

/-- Exact-match test of one run against the submitted vector, the per-row
meaning of the conjunctive pandas query `(p1==v1) & (p2==v2) & ...` built
by `Scenario.get_run`: every study parameter compares equal. -/
def Run.matchesVec (params : List String) (parameters : ParamVals) (r : Run) : Bool :=
  params.all (fun p => ParamVals.get r.values p == ParamVals.get parameters p)

/-- The matcher `Scenario.get_run`: find the run whose bound vector
equals the submitted one on every study parameter.  The dataframe rows
are the runs in id order; the source takes the first matching row, and a
LookupError is raised when no row matches. -/
def Scenario.get_run (s : Scenario) (parameters : ParamVals) : Except LookupErr Run :=
  match (s.runs.filter (Run.matchesVec s.params parameters)).head? with
  | none => .error .notFound
  | some r => .ok r

/-- The outcome of `Scenario.lookup_run` as seen by the route: either the
run object itself, or one of the bare status strings the method returns
(`waiting`, `provisional`, `new`), which the route wraps as a
status-only JSON object. -/
inductive LookupOutcome where
  | waiting
  | provisional
  | new
  | run (r : Run)
  deriving DecidableEq, Repr

/-- In-place state assignment `run.state = st` on the row with the given
id, as seen through the run list of the scenario. -/
def setRunState (runs : List Run) (i : Nat) (st : LookupState) : List Run :=
  runs.map (fun r => if r.id = i then { r with state := st } else r)

/-- The id the store assigns to a freshly inserted run: one more than the
largest existing id, or 1 on an empty table.  This is the documented
rowid choice of SQLite for a plain integer primary key (the models
declare no sqlite_autoincrement), so the id of a deleted maximum-id row
is handed out again by the next insert. -/
def nextRowId (runs : List Run) : Nat :=
  runs.foldr (fun r acc => max r.id acc) 0 + 1

/-- The lookup engine `Scenario.lookup_run`: resolve the vector to an
existing run, or manage the provisional slot.  Returns the outcome and
the scenario after the call.  Branches, in source order: a found
PROVISIONAL run is confirmed to NEW and the string `new` is returned; a
found run in any other state is returned as-is; with no match, an
existing PROVISIONAL run is deleted and `waiting` returned; otherwise a
fresh PROVISIONAL run is created and `provisional` returned. -/
def Scenario.lookup_run (s : Scenario) (parameters : ParamVals) : LookupOutcome × Scenario :=
  match s.get_run parameters with
  | .ok r =>
    if r.state = .PROVISIONAL then
      (.new, { s with runs := setRunState s.runs r.id .NEW })
    else
      (.run r, s)
  | .error _ =>
    match s.runs.find? (fun r => r.state = .PROVISIONAL) with
    | some p =>
      (.waiting, { s with runs := s.runs.eraseP (fun r => r.id = p.id) })
    | none =>
      let r := { Run.create (nextRowId s.runs) s.runtype s.params parameters with
        state := .PROVISIONAL }
      (.provisional, { s with runs := s.runs ++ [r] })

/-- The claim engine `Scenario.get_run_with_state`: take the first run
in the requested state (the first over the id-ordered rows), raise a
LookupError when there is none, and when a new state is given assign it
to the run before returning it.  The pair under `.ok` is (returned run,
scenario after the call). -/
def Scenario.get_run_with_state (s : Scenario) (state : LookupState)
    (new_state : Option LookupState) : Except LookupErr (Run × Scenario) :=
  match s.runs.find? (fun r => r.state = state) with
  | none => .error .notFound
  | some r =>
    match new_state with
    | none => .ok (r, s)
    | some ns => .ok ({ r with state := ns }, { s with runs := setRunState s.runs r.id ns })

/-- The operations of the boundary layer that touch the run store of one
scenario, as dispatched by `routes.py`. -/
inductive Op where
  | lookupRun (parameters : ParamVals)
  | getRun (parameters : ParamVals)
  | getRunWithState (state : LookupState) (new_state : Option LookupState)
  | setValue (runid : Nat) (value : Payload) (force : Bool)
  deriving DecidableEq, Repr

/-- Replace the row with the given id by its updated image, the effect of
committing an in-place mutation of one fetched run. -/
def updateRun (runs : List Run) (i : Nat) (r1 : Run) : List Run :=
  runs.map (fun r => if r.id = i then r1 else r)

/-- The scenario after one boundary operation.  `getRun` is a pure read.
`setValue` fetches the run by id as the value route does and commits
whatever `Run.set_value` left on the row (on an error the row is
unchanged). -/
def Scenario.step (s : Scenario) (op : Op) : Scenario :=
  match op with
  | .lookupRun parameters => (s.lookup_run parameters).2
  | .getRun _ => s
  | .getRunWithState st ns =>
    match s.get_run_with_state st ns with
    | .error _ => s
    | .ok (_, s1) => s1
  | .setValue i value force =>
    match s.runs.find? (fun r => r.id = i) with
    | none => s
    | some r => { s with runs := updateRun s.runs i (Run.set_value r value force).2 }

/-- The scenario after a sequence of boundary operations. -/
def Scenario.steps (s : Scenario) (ops : List Op) : Scenario :=
  ops.foldl Scenario.step s

/-- The number of runs of the scenario in the PROVISIONAL state. -/
def Scenario.provCount (s : Scenario) : Nat :=
  s.runs.countP (fun r => r.state = .PROVISIONAL)

/-- Well-formedness of the persisted store: the rows are in strictly
ascending id order (so ids are unique). -/
def Scenario.WF (s : Scenario) : Prop :=
  s.runs.Pairwise (fun a b => a.id < b.id)

/-- Whether an operation is a claim call that moves a run back into the
PROVISIONAL state. -/
def Op.setsProvisional : Op → Bool
  | .getRunWithState _ (some .PROVISIONAL) => true
  | _ => false

/-- Whether a lookup outcome carries the run object itself. -/
def LookupOutcome.isRun : LookupOutcome → Bool
  | .run _ => true
  | _ => false

/- ### Helper lemmas about the embedded operations -/

theorem set_value_snd_id (r : Run) (value : Payload) (force : Bool) :
    (r.set_value value force).2.id = r.id := by
  unfold Run.set_value Run._set_value
  split
  · cases hv : value.get "value" with
    | none => rfl
    | some v => cases r.runtype <;> rfl
  · rfl

theorem set_value_snd_cases (r : Run) (value : Payload) (force : Bool) :
    (r.set_value value force).2 = r ∨ (r.set_value value force).2.state = .COMPLETED := by
  unfold Run.set_value Run._set_value
  split
  · cases hv : value.get "value" with
    | none => exact Or.inl rfl
    | some v => cases r.runtype <;> exact Or.inr rfl
  · exact Or.inl rfl

theorem map_preserves_ids {f : Run → Run} (hf : ∀ a, (f a).id = a.id) (l : List Run) :
    (l.map f).map Run.id = l.map Run.id := by
  rw [List.map_map]
  exact List.map_congr_left (fun a _ => hf a)

theorem map_preserves_pairwise {f : Run → Run} (hf : ∀ a, (f a).id = a.id)
    {l : List Run} (h : l.Pairwise (fun a b => a.id < b.id)) :
    (l.map f).Pairwise (fun a b => a.id < b.id) := by
  rw [List.pairwise_map]
  exact h.imp (fun {a b} hab => by rw [hf a, hf b]; exact hab)

theorem map_preserves_bound {f : Run → Run} (hf : ∀ a, (f a).id = a.id)
    {l : List Run} {n : Nat} (h : ∀ r ∈ l, r.id < n) :
    ∀ r ∈ l.map f, r.id < n := by
  intro r hr
  obtain ⟨a, ha, rfl⟩ := List.mem_map.mp hr
  rw [hf a]
  exact h a ha

theorem countP_map_le {p : Run → Bool} {f : Run → Run}
    {l : List Run} (h : ∀ a ∈ l, p (f a) = true → p a = true) :
    (l.map f).countP p ≤ l.countP p := by
  induction l with
  | nil => simp
  | cons a t ih =>
    simp only [List.map_cons, List.countP_cons]
    have ht := ih (fun b hb => h b (List.mem_cons_of_mem a hb))
    have ha := h a (List.mem_cons_self a t)
    by_cases hfa : p (f a) = true
    · rw [if_pos hfa, if_pos (ha hfa)]
      omega
    · rw [if_neg hfa]
      split <;> omega

theorem setRunState_id (i : Nat) (st : LookupState) :
    ∀ a : Run, ((fun r : Run => if r.id = i then { r with state := st } else r) a).id = a.id := by
  intro a
  by_cases h : a.id = i <;> simp [h]

theorem id_unique {l : List Run} (h : l.Pairwise (fun a b => a.id < b.id))
    {a b : Run} (ha : a ∈ l) (hb : b ∈ l) (hid : a.id = b.id) : a = b := by
  induction l with
  | nil => cases ha
  | cons c t ih =>
    have hc := List.pairwise_cons.mp h
    rcases List.mem_cons.mp ha with rfl | hat
    · rcases List.mem_cons.mp hb with rfl | hbt
      · rfl
      · exact absurd hid (Nat.ne_of_lt (hc.1 b hbt))
    · rcases List.mem_cons.mp hb with rfl | hbt
      · exact absurd hid.symm (Nat.ne_of_lt (hc.1 a hat))
      · exact ih hc.2 hat hbt

theorem find?_min_id {p : Run → Bool} {l : List Run} {x : Run}
    (hs : l.Pairwise (fun a b => a.id < b.id)) (hf : l.find? p = some x) :
    ∀ y ∈ l, p y = true → x.id ≤ y.id := by
  induction l with
  | nil => simp at hf
  | cons a t ih =>
    have hc := List.pairwise_cons.mp hs
    intro y hy hpy
    by_cases hpa : p a = true
    · rw [List.find?_cons_of_pos _ hpa] at hf
      cases hf
      rcases List.mem_cons.mp hy with rfl | hyt
      · exact Nat.le_refl _
      · exact Nat.le_of_lt (hc.1 y hyt)
    · rw [List.find?_cons_of_neg _ hpa] at hf
      rcases List.mem_cons.mp hy with rfl | hyt
      · exact absurd hpy hpa
      · exact ih hc.2 hf y hyt hpy

/- ### Concrete fixtures used by witnesses and counterexamples -/

/-- A run that is ACTIVE and has no result stored yet. -/
def activeRun : Run :=
  { id := 1, runtype := .MISFIT, state := .ACTIVE,
    values := [("a", 0), ("b", 50)], misfit := none, path := none }

/-- A COMPLETED run holding a stored misfit of 10. -/
def doneRun : Run :=
  { id := 2, runtype := .MISFIT, state := .COMPLETED,
    values := [("a", 1)], misfit := some (.num 10), path := none }

/- ### C1 -/

/-- C1: for every run and well-formed payload, `set_value(run, payload,
force)` succeeds exactly when the state is strictly beyond CONFIGURED and
not COMPLETED, or `force` is set; on success the payload value is stored
in the column of the run type and the state becomes COMPLETED (so with
force it succeeds from any state, including COMPLETED); otherwise the call
fails with the wrong-state RuntimeError and leaves the run unchanged. -/
theorem set_value_guard_characterisation (r : Run) (value : Payload) (force : Bool)
    (v : JVal) (hv : value.get "value" = some v) :
    ((r.set_value value force).1 = .ok () ↔
      ((LookupState.CONFIGURED.value < r.state.value ∧ r.state ≠ .COMPLETED) ∨ force = true))
    ∧ ((r.set_value value force).1 = .ok () →
        (r.set_value value force).2.state = .COMPLETED ∧
        (r.set_value value force).2.storedValue = some v)
    ∧ (¬ ((LookupState.CONFIGURED.value < r.state.value ∧ r.state ≠ .COMPLETED) ∨ force = true) →
        r.set_value value force = (.error .invalidState, r)) := by
  unfold Run.set_value Run._set_value
  rw [hv]
  by_cases h : (LookupState.CONFIGURED.value < r.state.value ∧ r.state ≠ .COMPLETED) ∨ force = true
  · rw [if_pos h]
    cases hrt : r.runtype <;>
      simp [h, Run.storedValue, hrt]
  · rw [if_neg h]
    simp [h]

/-- Witness for C1: a COMPLETED run is rejected without force, yet accepted
with force, storing the new value. -/
theorem set_value_guard_characterisation_witness :
    (doneRun.set_value [("value", .num 3)] true).1 = .ok ()
    ∧ (doneRun.set_value [("value", .num 3)] true).2.state = .COMPLETED
    ∧ (doneRun.set_value [("value", .num 3)] true).2.storedValue = some (.num 3)
    ∧ doneRun.set_value [("value", .num 3)] false = (.error .invalidState, doneRun) := by
  have h := set_value_guard_characterisation doneRun [("value", .num 3)] true (.num 3) rfl
  have h2 := set_value_guard_characterisation doneRun [("value", .num 3)] false (.num 3) rfl
  have hok : (doneRun.set_value [("value", .num 3)] true).1 = .ok () :=
    h.1.mpr (Or.inr rfl)
  refine ⟨hok, (h.2.1 hok).1, (h.2.1 hok).2, h2.2.2 (by decide)⟩

/- ### C10 -/

/-- C10: for a run whose state passes the `set_value` guard, a payload
without the `value` key makes `set_value` fail with the KeyError
(BadPayload) before any mutation: the returned run is the original one,
so its state is not COMPLETED-ified and its stored column is untouched. -/
theorem set_value_missing_key_no_mutation (r : Run) (value : Payload) (force : Bool)
    (hg : (LookupState.CONFIGURED.value < r.state.value ∧ r.state ≠ .COMPLETED) ∨ force = true)
    (hv : value.get "value" = none) :
    r.set_value value force = (.error .badPayload, r) := by
  unfold Run.set_value Run._set_value
  rw [if_pos hg, hv]

/-- Witness for C10: an ACTIVE run fed an empty payload keeps its state
and its unset misfit column. -/
theorem set_value_missing_key_no_mutation_witness :
    activeRun.set_value [] false = (.error .badPayload, activeRun)
    ∧ activeRun.state = .ACTIVE ∧ activeRun.misfit = none := by
  refine ⟨set_value_missing_key_no_mutation activeRun [] false (by decide) rfl, rfl, rfl⟩

/- ### C7 (corrected) -/

/-- Counterexample to C7 as stated: a run that never completed does not
fail with a NotFound-class error on `get_value`; it returns a value,
namely the JSON object with `value` set to None (the unset column). -/
theorem get_value_unset_returns_null :
    activeRun.storedValue = none
    ∧ activeRun.get_value = .ok .null
    ∧ (activeRun.get_value).toBool = true := by
  exact ⟨rfl, rfl, rfl⟩

/-- C7 amended: `get_value` never fails.  For a run whose result has been
set it returns the stored value uniformly regardless of the run type, and
for a run with no result it returns the JSON None value. -/
theorem get_value_uniform_total (r : Run) :
    (∀ v, r.storedValue = some v → r.get_value = .ok v)
    ∧ (r.storedValue = none → r.get_value = .ok .null)
    ∧ RunMisfit.get_value r = .ok (r.misfit.getD .null)
    ∧ RunPath.get_value r = .ok (r.path.getD .null) := by
  refine ⟨?_, ?_, rfl, rfl⟩
  · intro v h
    unfold Run.get_value RunMisfit.get_value RunPath.get_value
    unfold Run.storedValue at h
    cases hrt : r.runtype <;> rw [hrt] at h <;> simp at h <;> simp [h]
  · intro h
    unfold Run.get_value RunMisfit.get_value RunPath.get_value
    unfold Run.storedValue at h
    cases hrt : r.runtype <;> rw [hrt] at h <;> simp at h <;> simp [h]

/-- Witness for C7 amended: the completed fixture surfaces its stored
value. -/
theorem get_value_uniform_total_witness :
    doneRun.get_value = .ok (.num 10) := by
  exact (get_value_uniform_total doneRun).1 (.num 10) rfl

/- ### C5 (corrected) -/

/-- A scenario holding exactly one run, a PROVISIONAL one bound to a = 5. -/
def provScenario : Scenario :=
  ⟨.MISFIT, ["a"],
   [{ id := 1, runtype := .MISFIT, state := .PROVISIONAL,
      values := [("a", 5)], misfit := none, path := none }]⟩

/-- Counterexample to C5 as stated: when the exact match is a PROVISIONAL
run, `lookup_run` does not return the run object; it returns the bare
status string `new` (which the route wraps as a status-only object),
even though the run exists and is confirmed. -/
theorem lookup_run_provisional_hit_not_run_object :
    (provScenario.get_run [("a", 5)]).toBool = true
    ∧ (provScenario.lookup_run [("a", 5)]).1 = .new
    ∧ ((provScenario.lookup_run [("a", 5)]).1).isRun = false := by
  exact ⟨rfl, rfl, rfl⟩

/-- C5 amended: when the exact match is an existing run, `lookup_run`
confirms a PROVISIONAL match to NEW but returns only the status string
`new`; in every other state, including COMPLETED, the run itself is
returned unchanged.  The not-found branches return the provisional and
waiting statuses. -/
theorem lookup_run_found_branch_behaviour (s : Scenario) (v : ParamVals) (r : Run)
    (h : s.get_run v = .ok r) :
    (r.state = .PROVISIONAL →
      s.lookup_run v = (.new, { s with runs := setRunState s.runs r.id .NEW }))
    ∧ (r.state ≠ .PROVISIONAL → s.lookup_run v = (.run r, s)) := by
  constructor
  · intro hp
    unfold Scenario.lookup_run
    rw [h]
    simp [hp, setRunState]
  · intro hp
    unfold Scenario.lookup_run
    rw [h]
    simp [hp]

/-- Witness for C5 amended: a scenario whose matching run is COMPLETED
gets the run object back unchanged. -/
theorem lookup_run_found_branch_behaviour_witness :
    (Scenario.mk .MISFIT ["a"] [doneRun]).lookup_run [("a", 1)] =
      (.run doneRun, Scenario.mk .MISFIT ["a"] [doneRun]) := by
  exact (lookup_run_found_branch_behaviour (Scenario.mk .MISFIT ["a"] [doneRun])
    [("a", 1)] doneRun rfl).2 (by decide)

/- ### C8 -/

/-- C8: `get_run` on a vector matching no bound vector of the runs of the
scenario fails with the not-found LookupError, and as a boundary
operation it leaves the scenario untouched: no run is created or deleted
and no state changes. -/
theorem get_run_unknown_vector_not_found_no_mutation (s : Scenario) (v : ParamVals)
    (h : ∀ r ∈ s.runs, Run.matchesVec s.params v r = false) :
    s.get_run v = .error .notFound ∧ s.step (.getRun v) = s := by
  have hfil : s.runs.filter (Run.matchesVec s.params v) = [] :=
    List.filter_eq_nil_iff.mpr (fun a ha => by rw [h a ha]; exact Bool.false_ne_true)
  exact ⟨by unfold Scenario.get_run; rw [hfil]; rfl, rfl⟩

/-- Witness for C8: the provisional fixture scenario has no run bound to
a = 7, and the lookup fails without mutation. -/
theorem get_run_unknown_vector_witness :
    provScenario.get_run [("a", 7)] = .error .notFound
    ∧ provScenario.step (.getRun [("a", 7)]) = provScenario := by
  exact get_run_unknown_vector_not_found_no_mutation provScenario [("a", 7)] (by decide)

/- ### C9 -/

/-- C9: the matcher locates a run only by exact equality of every
parameter value of the full vector: a returned run agrees with the
submitted vector on every study parameter, and among the runs whose bound
vectors equal the submitted one the returned run is the one with the
lowest id.  Conversely, whenever some run matches, the matcher returns
one. -/
theorem get_run_exact_match_lowest_id (s : Scenario) (v : ParamVals)
    (hs : s.runs.Pairwise (fun a b => a.id < b.id)) :
    (∀ r, s.get_run v = .ok r →
      (∀ p ∈ s.params, ParamVals.get r.values p = ParamVals.get v p)
      ∧ r ∈ s.runs
      ∧ (∀ r2 ∈ s.runs, Run.matchesVec s.params v r2 = true → r.id ≤ r2.id))
    ∧ ((∃ r2 ∈ s.runs, Run.matchesVec s.params v r2 = true) →
        ∃ r, s.get_run v = .ok r) := by
  constructor
  · intro r hr
    unfold Scenario.get_run at hr
    cases hfil : s.runs.filter (Run.matchesVec s.params v) with
    | nil => rw [hfil] at hr; simp at hr
    | cons q t =>
      rw [hfil] at hr
      simp only [List.head?_cons, Except.ok.injEq] at hr
      subst hr
      have hmem : q ∈ s.runs.filter (Run.matchesVec s.params v) := by
        rw [hfil]; exact List.mem_cons_self q t
      have hma := List.mem_filter.mp hmem
      refine ⟨?_, hma.1, ?_⟩
      · intro p hp
        have := List.all_eq_true.mp hma.2 p hp
        simpa using this
      · intro r2 h2 hm2
        have h2f : r2 ∈ q :: t := by
          rw [← hfil]; exact List.mem_filter.mpr ⟨h2, hm2⟩
        have hpf : (s.runs.filter (Run.matchesVec s.params v)).Pairwise
            (fun a b => a.id < b.id) := hs.sublist (List.filter_sublist s.runs)
        rw [hfil] at hpf
        rcases List.mem_cons.mp h2f with rfl | h2t
        · exact Nat.le_refl _
        · exact Nat.le_of_lt ((List.pairwise_cons.mp hpf).1 r2 h2t)
  · rintro ⟨r2, h2, hm2⟩
    cases hfil : s.runs.filter (Run.matchesVec s.params v) with
    | nil =>
      have : r2 ∈ s.runs.filter (Run.matchesVec s.params v) :=
        List.mem_filter.mpr ⟨h2, hm2⟩
      rw [hfil] at this
      cases this
    | cons r0 t =>
      exact ⟨r0, by unfold Scenario.get_run; rw [hfil]; rfl⟩

/-- A NEW run with id 4 bound to a = 1. -/
def newRun4 : Run :=
  { id := 4, runtype := .MISFIT, state := .NEW,
    values := [("a", 1)], misfit := none, path := none }

/-- A store holding two runs both bound to a = 1, the defensive tie-break
situation of the matcher. -/
def tieScenario : Scenario := ⟨.MISFIT, ["a"], [doneRun, newRun4]⟩

/-- Witness for C9: with two runs both bound to a = 1, the matcher
returns the one with the lower id. -/
theorem get_run_exact_match_lowest_id_witness :
    (tieScenario.get_run [("a", 1)]).map Run.id = .ok 2 := by
  obtain ⟨r, hr⟩ := (get_run_exact_match_lowest_id tieScenario [("a", 1)]
    (by decide)).2 ⟨doneRun, by decide, by decide⟩
  rw [hr]
  have hmin := ((get_run_exact_match_lowest_id tieScenario [("a", 1)]
    (by decide)).1 r hr).2.2 doneRun (by decide) (by decide)
  have hm : r ∈ [doneRun, newRun4] :=
    ((get_run_exact_match_lowest_id tieScenario [("a", 1)] (by decide)).1 r hr).2.1
  rcases List.mem_cons.mp hm with rfl | hm2
  · rfl
  · simp at hm2
    subst hm2
    simp [doneRun, newRun4] at hmin

/- ### C6 -/

/-- C6: `get_run_with_state` raises the not-found LookupError when no run
of the scenario is in the requested state; otherwise it selects the run
with the lowest id among those in the state, assigns `new_state` to it
when one is supplied (both on the returned run and in the store), and
returns it unchanged otherwise. -/
theorem get_run_with_state_spec (s : Scenario) (st : LookupState) (ns : Option LookupState)
    (hs : s.runs.Pairwise (fun a b => a.id < b.id)) :
    ((∀ r ∈ s.runs, r.state ≠ st) → s.get_run_with_state st ns = .error .notFound)
    ∧ (∀ r1 s1, s.get_run_with_state st ns = .ok (r1, s1) →
        ∃ r0 ∈ s.runs, r0.state = st ∧ r1.id = r0.id
          ∧ (∀ r2 ∈ s.runs, r2.state = st → r0.id ≤ r2.id)
          ∧ (∀ n, ns = some n → r1 = { r0 with state := n } ∧ r1 ∈ s1.runs)
          ∧ (ns = none → r1 = r0 ∧ s1 = s))
    ∧ ((∃ r ∈ s.runs, r.state = st) → ∃ p, s.get_run_with_state st ns = .ok p) := by
  refine ⟨?_, ?_, ?_⟩
  · intro h
    have hn : s.runs.find? (fun r => r.state = st) = none :=
      List.find?_eq_none.mpr (fun a ha => by simpa using h a ha)
    unfold Scenario.get_run_with_state
    rw [hn]
  · intro r1 s1 h
    unfold Scenario.get_run_with_state at h
    cases hf : s.runs.find? (fun r => r.state = st) with
    | none => rw [hf] at h; cases h
    | some r0 =>
      rw [hf] at h
      have hmem := List.mem_of_find?_eq_some hf
      have hst : r0.state = st := by simpa using List.find?_some hf
      have hmin := find?_min_id hs hf
      refine ⟨r0, hmem, hst, ?_⟩
      cases hns : ns with
      | none =>
        rw [hns] at h
        simp only [Except.ok.injEq, Prod.mk.injEq] at h
        refine ⟨by rw [← h.1], fun r2 h2 hs2 => hmin r2 h2 (by simpa using hs2), ?_, ?_⟩
        · intro n hn; cases hn
        · intro _; exact ⟨h.1.symm, h.2.symm⟩
      | some n =>
        rw [hns] at h
        simp only [Except.ok.injEq, Prod.mk.injEq] at h
        refine ⟨by rw [← h.1], fun r2 h2 hs2 => hmin r2 h2 (by simpa using hs2), ?_, ?_⟩
        · intro n2 hn2
          cases hn2
          refine ⟨h.1.symm, ?_⟩
          rw [← h.2, ← h.1]
          unfold setRunState
          exact List.mem_map.mpr ⟨r0, hmem, by simp⟩
        · intro hn; cases hn
  · rintro ⟨r, hr, hst⟩
    have : (s.runs.find? (fun r => r.state = st)).isSome :=
      List.find?_isSome.mpr ⟨r, hr, by simpa using hst⟩
    cases hf : s.runs.find? (fun r => r.state = st) with
    | none => rw [hf] at this; cases this
    | some r0 =>
      unfold Scenario.get_run_with_state
      rw [hf]
      cases ns with
      | none => exact ⟨_, rfl⟩
      | some n => exact ⟨_, rfl⟩

/-- A NEW run with id 6 bound to a = 2. -/
def newRun6 : Run :=
  { id := 6, runtype := .MISFIT, state := .NEW,
    values := [("a", 2)], misfit := none, path := none }

/-- A scenario holding the two NEW fixture runs. -/
def twoNewScenario : Scenario := ⟨.MISFIT, ["a"], [newRun4, newRun6]⟩

/-- Witness for C6: with two NEW runs in the store the claim call
succeeds, and on an empty store it reports the not-found error. -/
theorem get_run_with_state_spec_witness :
    (twoNewScenario.get_run_with_state .NEW (some .ACTIVE)).toBool = true
    ∧ ((Scenario.mk .MISFIT ["a"] []).get_run_with_state .NEW none = .error .notFound) := by
  constructor
  · obtain ⟨p, hp⟩ := (get_run_with_state_spec twoNewScenario .NEW (some .ACTIVE)
      (by decide)).2.2 ⟨newRun4, by decide, rfl⟩
    rw [hp]; rfl
  · exact (get_run_with_state_spec (Scenario.mk .MISFIT ["a"] []) .NEW none
      (by decide)).1 (by intro r hr; cases hr)

/- ### Helper lemmas about run creation and lookup -/

theorem get_map_self (f : String → Int) :
    ∀ (params : List String) (p : String), p ∈ params →
      ParamVals.get (params.map (fun q => (q, f q))) p = some (f p) := by
  intro params
  induction params with
  | nil => intro p hp; cases hp
  | cons a t ih =>
    intro p hp
    by_cases hap : a = p
    · subst hap
      unfold ParamVals.get
      rw [List.map_cons, List.find?_cons_of_pos _ (by simp)]
      rfl
    · unfold ParamVals.get at ih ⊢
      rw [List.map_cons, List.find?_cons_of_neg _ (by simp [hap])]
      apply ih
      rcases List.mem_cons.mp hp with rfl | h
      · exact absurd rfl hap
      · exact h

theorem create_matchesVec (params : List String) (v : ParamVals) (hc : covers params v)
    (i : Nat) (rt : RunType) (st : LookupState) :
    Run.matchesVec params v { Run.create i rt params v with state := st } = true := by
  unfold Run.matchesVec Run.create
  rw [List.all_eq_true]
  intro p hp
  obtain ⟨x, hx⟩ := Option.isSome_iff_exists.mp (hc p hp)
  have hg := get_map_self (fun q => (ParamVals.get v q).getD 0) params p hp
  simp only []
  rw [hg, hx]
  simp [hx]

theorem get_run_error_filter_nil {s : Scenario} {v : ParamVals}
    (h : s.get_run v = .error .notFound) :
    s.runs.filter (Run.matchesVec s.params v) = [] := by
  unfold Scenario.get_run at h
  cases hh : (s.runs.filter (Run.matchesVec s.params v)).head? with
  | none => exact List.head?_eq_none_iff.mp hh
  | some q => rw [hh] at h; cases h

/- ### C3 -/

/-- C3: when `lookup_run` answers a vector with the provisional status
(having created a PROVISIONAL run for it), an immediately repeated
`lookup_run` with the same vector answers with the confirmation status,
the created run (carrying the id assigned at creation) is now NEW,
no run is created or deleted by the second call, and no PROVISIONAL run
is left — in particular no second distinct PROVISIONAL run exists. -/
theorem lookup_run_same_vector_twice_confirms (s : Scenario) (v : ParamVals)
    (hc : covers s.params v)
    (h1 : (s.lookup_run v).1 = .provisional) :
    ((s.lookup_run v).2.lookup_run v).1 = .new
    ∧ ((s.lookup_run v).2.lookup_run v).2.runs.map Run.id
        = (s.lookup_run v).2.runs.map Run.id
    ∧ (∃ r ∈ ((s.lookup_run v).2.lookup_run v).2.runs,
        r.id = nextRowId s.runs ∧ r.state = .NEW)
    ∧ ((s.lookup_run v).2.lookup_run v).2.provCount = 0 := by
  cases hget : s.get_run v with
  | ok r =>
    by_cases hrs : r.state = .PROVISIONAL <;>
      · unfold Scenario.lookup_run at h1
        rw [hget] at h1
        simp [hrs] at h1
  | error e =>
    cases e
    cases hfind : s.runs.find? (fun r => r.state = .PROVISIONAL) with
    | some p =>
      unfold Scenario.lookup_run at h1
      rw [hget, hfind] at h1
      simp at h1
    | none =>
      have hstep : s.lookup_run v =
          (.provisional, { s with
            runs := s.runs ++ [{ Run.create (nextRowId s.runs) s.runtype s.params v with
              state := .PROVISIONAL }] }) := by
        unfold Scenario.lookup_run
        rw [hget, hfind]
      rw [hstep]
      have hcm := create_matchesVec s.params v hc (nextRowId s.runs) s.runtype .PROVISIONAL
      have hfil := get_run_error_filter_nil hget
      have hget2 : ({ s with
            runs := s.runs ++ [{ Run.create (nextRowId s.runs) s.runtype s.params v with
              state := .PROVISIONAL }] } : Scenario).lookup_run v =
          (.new, { s with
            runs := setRunState (s.runs ++ [{ Run.create (nextRowId s.runs) s.runtype
              s.params v with state := .PROVISIONAL }]) (nextRowId s.runs) .NEW }) := by
        unfold Scenario.lookup_run Scenario.get_run
        rw [List.filter_append, hfil]
        simp only [List.nil_append, hcm, List.filter_cons_of_pos, List.filter_nil,
          List.head?_cons]
        rfl
      rw [hget2]
      have hnoprov : ∀ a ∈ s.runs, ¬ (a.state = .PROVISIONAL) :=
        fun a ha => by simpa using List.find?_eq_none.mp hfind a ha
      refine ⟨rfl, map_preserves_ids (setRunState_id (nextRowId s.runs) .NEW) _, ?_, ?_⟩
      · refine ⟨{ Run.create (nextRowId s.runs) s.runtype s.params v with
          state := .NEW }, ?_, rfl, rfl⟩
        unfold setRunState
        refine List.mem_map.mpr ⟨{ Run.create (nextRowId s.runs) s.runtype s.params v with
          state := .PROVISIONAL }, ?_, by simp [Run.create]⟩
        exact List.mem_append_right _ (List.mem_singleton.mpr rfl)
      · unfold Scenario.provCount setRunState
        rw [List.countP_eq_zero]
        intro a ha
        obtain ⟨b, hb, rfl⟩ := List.mem_map.mp ha
        rcases List.mem_append.mp hb with hbs | hbc
        · by_cases hid : b.id = nextRowId s.runs <;> simp [hid, hnoprov b hbs]
        · rw [List.mem_singleton.mp hbc]
          simp [Run.create]

/-- Witness for C3: from an empty scenario over parameter a, submitting
a = 1 twice first creates a provisional run, then confirms it. -/
theorem lookup_run_same_vector_twice_confirms_witness :
    ((((Scenario.mk .MISFIT ["a"] []).lookup_run [("a", 1)]).2.lookup_run [("a", 1)]).1 = .new)
    ∧ ((((Scenario.mk .MISFIT ["a"] []).lookup_run [("a", 1)]).2.lookup_run [("a", 1)]).2.provCount = 0) := by
  have h := lookup_run_same_vector_twice_confirms (Scenario.mk .MISFIT ["a"] [])
    [("a", 1)] (show covers ["a"] [("a", 1)] from fun p hp => by
      rw [List.mem_singleton.mp hp]; rfl) (by decide)
  exact ⟨h.1, h.2.2.2⟩

/- ### C4 (corrected) -/

/-- Counterexample to C4 as stated: run ids are assigned by the store as
one more than the largest existing id (the SQLite rowid rule for the
plain integer primary keys the models declare, on the backend the source
defaults to and tests with), so after the eviction of a maximum-id
provisional run the re-submitted vector obtains a run with the very same
id.  Concretely, from an empty store: the first lookup creates the
provisional run with id 1; a different vector evicts it, emptying the
store; re-submitting the first vector creates a provisional run that
again has id 1 — the identity of the evicted run, not a different one. -/
theorem lookup_run_recreated_id_reused :
    ((Scenario.mk .MISFIT ["a"] []).steps [.lookupRun [("a", 1)]]).runs.map
        (fun r => (r.id, r.state)) = [(1, .PROVISIONAL)]
    ∧ ((Scenario.mk .MISFIT ["a"] []).steps
        [.lookupRun [("a", 1)], .lookupRun [("a", 2)]]).runs = []
    ∧ ((Scenario.mk .MISFIT ["a"] []).steps
        [.lookupRun [("a", 1)], .lookupRun [("a", 2)], .lookupRun [("a", 1)]]).runs.map
        (fun r => (r.id, r.state)) = [(1, .PROVISIONAL)] := by
  exact ⟨rfl, rfl, rfl⟩

/-- C4 amended: with a single PROVISIONAL run p (bound to v1, the only
run matching v1) in the store, `lookup_run` on a vector v2 matching no
bound vector deletes p, returns the waiting status carrying no run, and
creates nothing; a later `lookup_run` on v1 then creates and returns a
newly inserted PROVISIONAL run bound to v1.  The new row is not
guaranteed a distinct identity: the store may hand the evicted id out
again (see the counterexample), so the distinct-identity clause of the
original claim is dropped. -/
theorem lookup_run_distinct_vector_evicts (s : Scenario) (v1 v2 : ParamVals) (p : Run)
    (hWF : s.WF)
    (hc : covers s.params v1)
    (hp : p ∈ s.runs) (hps : p.state = .PROVISIONAL)
    (huniq : ∀ r ∈ s.runs, r.state = .PROVISIONAL → r = p)
    (hmatch : s.runs.filter (Run.matchesVec s.params v1) = [p])
    (hnom : s.get_run v2 = .error .notFound) :
    (s.lookup_run v2).1 = .waiting
    ∧ (∀ r ∈ (s.lookup_run v2).2.runs, r.id ≠ p.id)
    ∧ (∀ r ∈ (s.lookup_run v2).2.runs, r ∈ s.runs)
    ∧ ((s.lookup_run v2).2.lookup_run v1).1 = .provisional
    ∧ (∃ c, ((s.lookup_run v2).2.lookup_run v1).2.runs = (s.lookup_run v2).2.runs ++ [c]
        ∧ Run.matchesVec s.params v1 c = true ∧ c.state = .PROVISIONAL) := by
  have hfind : s.runs.find? (fun r => r.state = .PROVISIONAL) = some p := by
    cases hf : s.runs.find? (fun r => r.state = .PROVISIONAL) with
    | none =>
      have := List.find?_eq_none.mp hf p hp
      simp [hps] at this
    | some q =>
      have hqm := List.mem_of_find?_eq_some hf
      have hqs : q.state = .PROVISIONAL := by simpa using List.find?_some hf
      exact congrArg some (huniq q hqm hqs)
  have hstep1 : s.lookup_run v2 =
      (.waiting, { s with runs := s.runs.eraseP (fun r => r.id = p.id) }) := by
    unfold Scenario.lookup_run
    rw [hnom, hfind]
  rw [hstep1]
  have hid_out : ∀ r ∈ s.runs.eraseP (fun r => r.id = p.id), r.id ≠ p.id := by
    obtain ⟨a, l₁, l₂, hl₁, hpa, heq, herased⟩ :=
      List.exists_of_eraseP (p := fun r => r.id = p.id) hp (by simp)
    have ha : a = p := by
      have ham : a ∈ s.runs := heq ▸ List.mem_append_right l₁ (List.mem_cons_self a l₂)
      exact id_unique hWF ham hp (by simpa using hpa)
    subst ha
    rw [herased]
    intro r hr
    rcases List.mem_append.mp hr with h1 | h2
    · simpa using hl₁ r h1
    · have hpair : s.runs.Pairwise (fun a b => a.id < b.id) := hWF
      rw [heq] at hpair
      have := (List.pairwise_append.mp hpair).2.1
      exact Nat.ne_of_gt ((List.pairwise_cons.mp this).1 r h2)
  have hsub : ∀ r ∈ s.runs.eraseP (fun r => r.id = p.id), r ∈ s.runs :=
    fun r hr => (List.eraseP_sublist s.runs).subset hr
  have hfil1 : (s.runs.eraseP (fun r => r.id = p.id)).filter
      (Run.matchesVec s.params v1) = [] := by
    have hsl : List.Sublist
        ((s.runs.eraseP (fun r => r.id = p.id)).filter (Run.matchesVec s.params v1))
        (s.runs.filter (Run.matchesVec s.params v1)) :=
      (List.eraseP_sublist s.runs).filter _
    rw [hmatch] at hsl
    rcases List.sublist_singleton.mp hsl with h | h
    · exact h
    · exfalso
      have hpe : p ∈ (s.runs.eraseP (fun r => r.id = p.id)) := by
        have : p ∈ (s.runs.eraseP (fun r => r.id = p.id)).filter
            (Run.matchesVec s.params v1) := by rw [h]; exact List.mem_singleton.mpr rfl
        exact (List.mem_filter.mp this).1
      exact hid_out p hpe rfl
  have hnoprov1 : (s.runs.eraseP (fun r => r.id = p.id)).find?
      (fun r => r.state = .PROVISIONAL) = none := by
    refine List.find?_eq_none.mpr (fun r hr => ?_)
    simp only [decide_eq_true_eq]
    intro hrs
    exact hid_out r hr (by rw [huniq r (hsub r hr) hrs])
  have hstep2 : ({ s with runs := s.runs.eraseP (fun r => r.id = p.id) } : Scenario).lookup_run v1 =
      (.provisional, { s with
        runs := s.runs.eraseP (fun r => r.id = p.id) ++
          [{ Run.create (nextRowId (s.runs.eraseP (fun r => r.id = p.id)))
            s.runtype s.params v1 with state := .PROVISIONAL }] }) := by
    unfold Scenario.lookup_run Scenario.get_run
    rw [hfil1, hnoprov1]
    rfl
  rw [hstep2]
  refine ⟨rfl, hid_out, hsub, rfl, ?_⟩
  exact ⟨{ Run.create (nextRowId (s.runs.eraseP (fun r => r.id = p.id)))
      s.runtype s.params v1 with state := .PROVISIONAL }, rfl,
    create_matchesVec s.params v1 hc _ s.runtype .PROVISIONAL, rfl⟩

/- ### Branch equations of lookup_run and preservation lemmas -/

theorem lookup_run_confirm_eq {s : Scenario} {v : ParamVals} {r : Run}
    (hget : s.get_run v = .ok r) (hrs : r.state = .PROVISIONAL) :
    s.lookup_run v = (.new, { s with runs := setRunState s.runs r.id .NEW }) := by
  unfold Scenario.lookup_run
  rw [hget]
  simp [hrs, setRunState]

theorem lookup_run_asis_eq {s : Scenario} {v : ParamVals} {r : Run}
    (hget : s.get_run v = .ok r) (hrs : ¬ r.state = .PROVISIONAL) :
    s.lookup_run v = (.run r, s) := by
  unfold Scenario.lookup_run
  rw [hget]
  simp [hrs]

theorem lookup_run_evict_eq {s : Scenario} {v : ParamVals} {p : Run}
    (hget : s.get_run v = .error .notFound)
    (hfind : s.runs.find? (fun r => r.state = .PROVISIONAL) = some p) :
    s.lookup_run v = (.waiting, { s with runs := s.runs.eraseP (fun r => r.id = p.id) }) := by
  unfold Scenario.lookup_run
  rw [hget, hfind]

theorem lookup_run_create_eq {s : Scenario} {v : ParamVals}
    (hget : s.get_run v = .error .notFound)
    (hfind : s.runs.find? (fun r => r.state = .PROVISIONAL) = none) :
    s.lookup_run v = (.provisional, { s with
      runs := s.runs ++ [{ Run.create (nextRowId s.runs) s.runtype s.params v with
        state := .PROVISIONAL }] }) := by
  unfold Scenario.lookup_run
  rw [hget, hfind]

theorem step_getRunWithState_eq (s : Scenario) (st : LookupState) (ns : Option LookupState) :
    s.step (.getRunWithState st ns) =
      (match s.get_run_with_state st ns with
        | .error _ => s
        | .ok (_, s1) => s1) := rfl

theorem step_setValue_eq (s : Scenario) (i : Nat) (value : Payload) (force : Bool) :
    s.step (.setValue i value force) =
      (match s.runs.find? (fun r => r.id = i) with
        | none => s
        | some r => { s with runs := updateRun s.runs i (r.set_value value force).2 }) := rfl

theorem id_lt_nextRowId : ∀ (l : List Run), ∀ a ∈ l, a.id < nextRowId l := by
  intro l
  induction l with
  | nil => intro a ha; cases ha
  | cons r t ih =>
    intro a ha
    unfold nextRowId at ih ⊢
    rcases List.mem_cons.mp ha with rfl | hat
    · exact Nat.lt_succ_of_le (Nat.le_max_left _ _)
    · exact Nat.lt_succ_of_le
        (Nat.le_trans (Nat.le_of_lt_succ (ih a hat)) (Nat.le_max_right _ _))

theorem WF_map_update {s : Scenario} (hWF : s.WF) {f : Run → Run}
    (hf : ∀ a, (f a).id = a.id) :
    Scenario.WF { s with runs := s.runs.map f } :=
  map_preserves_pairwise hf hWF

theorem WF_eraseP {s : Scenario} (hWF : s.WF) (q : Run → Bool) :
    Scenario.WF { s with runs := s.runs.eraseP q } :=
  hWF.sublist (List.eraseP_sublist _)

theorem WF_append_fresh {s : Scenario} (hWF : s.WF) (c : Run) (hc : c.id = nextRowId s.runs) :
    Scenario.WF { s with runs := s.runs ++ [c] } := by
  show (s.runs ++ [c]).Pairwise (fun a b => a.id < b.id)
  rw [List.pairwise_append]
  refine ⟨hWF, List.pairwise_singleton _ _, fun a ha b hb => ?_⟩
  rw [List.mem_singleton.mp hb, hc]
  exact id_lt_nextRowId s.runs a ha

theorem WF_lookup_run (s : Scenario) (v : ParamVals) (hWF : s.WF) :
    ((s.lookup_run v).2).WF := by
  cases hget : s.get_run v with
  | ok r =>
    by_cases hrs : r.state = .PROVISIONAL
    · rw [lookup_run_confirm_eq hget hrs]
      exact WF_map_update hWF (setRunState_id r.id .NEW)
    · rw [lookup_run_asis_eq hget hrs]
      exact hWF
  | error e =>
    cases e
    cases hfind : s.runs.find? (fun r => r.state = .PROVISIONAL) with
    | some p =>
      rw [lookup_run_evict_eq hget hfind]
      exact WF_eraseP hWF _
    | none =>
      rw [lookup_run_create_eq hget hfind]
      exact WF_append_fresh hWF _ rfl

theorem WF_get_run_with_state {s s1 : Scenario} {st : LookupState}
    {ns : Option LookupState} {r1 : Run}
    (h : s.get_run_with_state st ns = .ok (r1, s1)) (hWF : s.WF) : s1.WF := by
  unfold Scenario.get_run_with_state at h
  cases hf : s.runs.find? (fun r => r.state = st) with
  | none => rw [hf] at h; cases h
  | some r0 =>
    rw [hf] at h
    cases ns with
    | none =>
      simp only [Except.ok.injEq, Prod.mk.injEq] at h
      rw [← h.2]
      exact hWF
    | some n =>
      simp only [Except.ok.injEq, Prod.mk.injEq] at h
      rw [← h.2]
      exact WF_map_update hWF (setRunState_id r0.id n)

theorem WF_step (s : Scenario) (op : Op) (hWF : s.WF) : (s.step op).WF := by
  cases op with
  | lookupRun v => exact WF_lookup_run s v hWF
  | getRun v => exact hWF
  | getRunWithState st ns =>
    rw [step_getRunWithState_eq]
    cases hg : s.get_run_with_state st ns with
    | error e => exact hWF
    | ok q =>
      obtain ⟨r1, s1⟩ := q
      exact WF_get_run_with_state hg hWF
  | setValue i value force =>
    rw [step_setValue_eq]
    cases hf : s.runs.find? (fun r => r.id = i) with
    | none => exact hWF
    | some r =>
      have hri : r.id = i := by simpa using List.find?_some hf
      refine WF_map_update hWF ?_
      intro a
      by_cases h : a.id = i
      · rw [if_pos h, set_value_snd_id, hri, h]
      · rw [if_neg h]

theorem provCount_le_one_step (s : Scenario) (op : Op) (hWF : s.WF)
    (hp : s.provCount ≤ 1) (hop : op.setsProvisional = false) :
    (s.step op).provCount ≤ 1 := by
  cases op with
  | getRun v => exact hp
  | lookupRun v =>
    show ((s.lookup_run v).2).provCount ≤ 1
    cases hget : s.get_run v with
    | ok r =>
      by_cases hrs : r.state = .PROVISIONAL
      · rw [lookup_run_confirm_eq hget hrs]
        refine le_trans ?_ hp
        unfold Scenario.provCount setRunState
        apply countP_map_le
        intro a ha hpa
        by_cases h : a.id = r.id
        · rw [if_pos h] at hpa
          simp at hpa
        · rwa [if_neg h] at hpa
      · rw [lookup_run_asis_eq hget hrs]
        exact hp
    | error e =>
      cases e
      cases hfind : s.runs.find? (fun r => r.state = .PROVISIONAL) with
      | some p =>
        rw [lookup_run_evict_eq hget hfind]
        exact le_trans ((List.eraseP_sublist _).countP_le _) hp
      | none =>
        rw [lookup_run_create_eq hget hfind]
        unfold Scenario.provCount
        rw [List.countP_append]
        have h0 : s.runs.countP (fun r => r.state = .PROVISIONAL) = 0 :=
          List.countP_eq_zero.mpr
            (fun a ha => by simpa using List.find?_eq_none.mp hfind a ha)
        rw [h0]
        simp
  | getRunWithState st ns =>
    rw [step_getRunWithState_eq]
    cases hg : s.get_run_with_state st ns with
    | error e => exact hp
    | ok q =>
      obtain ⟨r1, s1⟩ := q
      unfold Scenario.get_run_with_state at hg
      cases hf : s.runs.find? (fun r => r.state = st) with
      | none => rw [hf] at hg; cases hg
      | some r0 =>
        rw [hf] at hg
        cases ns with
        | none =>
          simp only [Except.ok.injEq, Prod.mk.injEq] at hg
          rw [← hg.2]
          exact hp
        | some n =>
          have hn : ¬ n = .PROVISIONAL := by
            intro h
            subst h
            simp [Op.setsProvisional] at hop
          simp only [Except.ok.injEq, Prod.mk.injEq] at hg
          rw [← hg.2]
          refine le_trans ?_ hp
          unfold Scenario.provCount setRunState
          apply countP_map_le
          intro a ha hpa
          by_cases h : a.id = r0.id
          · rw [if_pos h] at hpa
            simp at hpa
            exact absurd hpa hn
          · rwa [if_neg h] at hpa
  | setValue i value force =>
    rw [step_setValue_eq]
    cases hf : s.runs.find? (fun r => r.id = i) with
    | none => exact hp
    | some r =>
      have hri : r.id = i := by simpa using List.find?_some hf
      have hrm := List.mem_of_find?_eq_some hf
      refine le_trans ?_ hp
      unfold Scenario.provCount updateRun
      apply countP_map_le
      intro a ha hpa
      by_cases h : a.id = i
      · rw [if_pos h] at hpa
        rcases set_value_snd_cases r value force with hcase | hcase
        · rw [hcase] at hpa
          have haeq : a = r := id_unique hWF ha hrm (by rw [h, hri])
          rwa [haeq]
        · simp [hcase] at hpa
      · rwa [if_neg h] at hpa

theorem WF_provCount_steps (s : Scenario) (ops : List Op) (hWF : s.WF)
    (hp : s.provCount ≤ 1) (hops : ∀ op ∈ ops, op.setsProvisional = false) :
    (s.steps ops).WF ∧ (s.steps ops).provCount ≤ 1 := by
  induction ops generalizing s with
  | nil => exact ⟨hWF, hp⟩
  | cons op t ih =>
    have h1 := WF_step s op hWF
    have h2 := provCount_le_one_step s op hWF hp (hops op (List.mem_cons_self _ _))
    exact ih (s.step op) h1 h2 (fun o ho => hops o (List.mem_cons_of_mem _ ho))

/- ### C2 (corrected) -/

/-- Counterexample to C2 as stated: from an empty well-formed scenario, a
sequence consisting only of lookupRun and getRunWithState calls drives two
runs into the PROVISIONAL state at once, because getRunWithState accepts
PROVISIONAL as its new state and moves a NEW run back into it. -/
theorem two_provisional_reachable :
    (Scenario.mk .MISFIT ["a"] []).provCount = 0
    ∧ ((Scenario.mk .MISFIT ["a"] []).steps
        [.lookupRun [("a", 1)], .lookupRun [("a", 1)], .lookupRun [("a", 2)],
         .getRunWithState .NEW (some .PROVISIONAL)]).provCount = 2 := by
  exact ⟨rfl, by decide⟩

/-- C2 amended: for every well-formed scenario with at most one
PROVISIONAL run and every sequence of lookupRun, getRun, getRunWithState
and setValue operations in which getRunWithState is never invoked with
PROVISIONAL as the new state, at most one run of the scenario is
PROVISIONAL at every point of the sequence: lookupRun creates a
PROVISIONAL run only after finding none (evicting one if present), and no
other allowed operation moves a run into PROVISIONAL. -/
theorem single_provisional_invariant (s : Scenario) (ops : List Op)
    (hWF : s.WF) (hp : s.provCount ≤ 1)
    (hops : ∀ op ∈ ops, op.setsProvisional = false) :
    ∀ pre suf, ops = pre ++ suf → (s.steps pre).provCount ≤ 1 := by
  intro pre suf heq
  refine (WF_provCount_steps s pre hWF hp ?_).2
  intro op hop
  exact hops op (heq ▸ List.mem_append_left suf hop)

/-- Witness for C2 amended: one lookup from the empty scenario leaves a
single provisional run. -/
theorem single_provisional_invariant_witness :
    ((Scenario.mk .MISFIT ["a"] []).steps [.lookupRun [("a", 1)]]).provCount ≤ 1 := by
  exact single_provisional_invariant (Scenario.mk .MISFIT ["a"] []) [.lookupRun [("a", 1)]]
    List.Pairwise.nil (by decide)
    (fun op hop => by rw [List.mem_singleton.mp hop]; rfl)
    [.lookupRun [("a", 1)]] [] rfl

/-- Witness for C4: the provisional fixture scenario evicts its run for
a = 5 when a = 7 arrives, and a renewed submission of a = 5 gets a fresh
provisional run with the next id. -/
theorem lookup_run_distinct_vector_evicts_witness :
    (provScenario.lookup_run [("a", 7)]).1 = .waiting
    ∧ ((provScenario.lookup_run [("a", 7)]).2.lookup_run [("a", 5)]).1 = .provisional := by
  have h := lookup_run_distinct_vector_evicts provScenario [("a", 5)] [("a", 7)]
    { id := 1, runtype := .MISFIT, state := .PROVISIONAL,
      values := [("a", 5)], misfit := none, path := none }
    (by unfold Scenario.WF; decide)
    (show covers ["a"] [("a", 5)] from fun p hp => by
      rw [List.mem_singleton.mp hp]; rfl)
    (by decide) rfl (by decide) (by decide) rfl
  exact ⟨h.1, h.2.2.2.1⟩

end ObjFun
